import Mathlib

/-!
Shallow embedding of the paragraph classification and filtering engine of the
promptcleaner repository (files src/app.py and src/streamlit_app.py).

Modelling conventions:
* a Python string is a list of Unicode code points (`List Char`);
* Python `int` is `Int`, Python `float` thresholds and ratios are exact
  rationals (`ℚ`); the only float operations the code performs on them are
  comparisons, `min`/`max`, division of small integers and `int(x * 0.75)`,
  all of which are exact at the values reachable in this program;
* the optional `langdetect` package is an explicit boolean availability flag
  plus a detector function returning `Except Unit String`, where
  `Except.error` models a raised exception.
-/

namespace PromptCleaner

/-- A Python string, viewed as its sequence of Unicode code points. -/
abbrev Text := List Char

/-- Unicode white space as recognised by Python `str.split()` / `str.strip()`
(the characters for which `str.isspace()` holds). -/
def isWS (c : Char) : Bool :=
  decide (c.toNat ∈ ([9, 10, 11, 12, 13, 28, 29, 30, 31, 32, 0x85, 0xA0, 0x1680,
    0x2000, 0x2001, 0x2002, 0x2003, 0x2004, 0x2005, 0x2006, 0x2007, 0x2008,
    0x2009, 0x200A, 0x2028, 0x2029, 0x202F, 0x205F, 0x3000] : List Nat))

theorem dropWhile_length_le (p : Char → Bool) : ∀ l : List Char,
    (l.dropWhile p).length ≤ l.length
  | [] => Nat.le_refl _
  | a :: l => by
    rw [List.dropWhile_cons]
    split
    · exact Nat.le_succ_of_le (dropWhile_length_le p l)
    · exact Nat.le_refl _

/-- Worker for `runsP`, structurally recursive on a fuel argument that bounds
the list length (this keeps the definition kernel-reducible). -/
def runsPF (p : Char → Bool) : Nat → List Char → List (List Char)
  | _, [] => []
  | 0, _ :: _ => []
  | fuel + 1, c :: cs =>
    if p c then (c :: cs.takeWhile p) :: runsPF p fuel (cs.dropWhile p)
    else runsPF p fuel cs

/-- Maximal runs of consecutive characters satisfying `p`: the semantics of
`re.findall` with a character class, and of `str.split()` with
`p = not whitespace`. -/
def runsP (p : Char → Bool) (l : List Char) : List (List Char) :=
  runsPF p l.length l

theorem runsPF_fuel (p : Char → Bool) : ∀ (fuel fuel' : Nat) (l : List Char),
    l.length ≤ fuel → l.length ≤ fuel' → runsPF p fuel l = runsPF p fuel' l := by
  intro fuel
  induction fuel with
  | zero =>
    intro fuel' l hl _
    have : l = [] := List.eq_nil_of_length_eq_zero (Nat.le_zero.mp hl)
    subst this
    cases fuel' <;> rfl
  | succ fuel ih =>
    intro fuel' l hl hl'
    cases l with
    | nil => cases fuel' <;> rfl
    | cons c cs =>
      cases fuel' with
      | zero => exact absurd hl' (by simp)
      | succ fuel' =>
        simp only [runsPF]
        by_cases hc : p c
        · simp only [hc, if_true]
          have hcs : cs.length ≤ fuel := by simpa using hl
          have hcs' : cs.length ≤ fuel' := by simpa using hl'
          rw [ih fuel' (cs.dropWhile p)
            (Nat.le_trans (dropWhile_length_le p cs) hcs)
            (Nat.le_trans (dropWhile_length_le p cs) hcs')]
        · simp only [hc, if_false]
          have hcs : cs.length ≤ fuel := by simpa using hl
          have hcs' : cs.length ≤ fuel' := by simpa using hl'
          exact ih fuel' cs hcs hcs'

theorem runsP_nil (p : Char → Bool) : runsP p [] = [] := rfl

theorem runsP_cons_pos {p : Char → Bool} {c : Char} {cs : List Char} (h : p c = true) :
    runsP p (c :: cs) = (c :: cs.takeWhile p) :: runsP p (cs.dropWhile p) := by
  unfold runsP
  simp only [List.length_cons, runsPF, h, if_true]
  rw [runsPF_fuel p cs.length (cs.dropWhile p).length (cs.dropWhile p)
    (dropWhile_length_le p cs) (Nat.le_refl _)]

theorem runsP_cons_neg {p : Char → Bool} {c : Char} {cs : List Char} (h : p c = false) :
    runsP p (c :: cs) = runsP p cs := by
  unfold runsP
  simp only [List.length_cons, runsPF, h, Bool.false_eq_true, if_false]

/-- Python `s.split()`: split on whitespace runs, dropping empty fields. -/
def pysplit (t : Text) : List Text := runsP (fun c => !isWS c) t

/-- Python `" ".join ts` for a list of strings. -/
def joinSp : List Text → Text
  | [] => []
  | [t] => t
  | t :: u :: ts => t ++ ' ' :: joinSp (u :: ts)

/-- Python `s.strip()`: remove leading and trailing whitespace. -/
def stripWS (t : Text) : Text := ((t.dropWhile isWS).reverse.dropWhile isWS).reverse

/-- The function `normalize_ws` of src/app.py:
`" ".join((s or "").split()).strip()`. -/
def normalize_ws (s : Text) : Text := stripWS (joinSp (pysplit s))

/-- Worker for `collapse_ws`, structurally recursive on a fuel argument that
bounds the list length. -/
def collapse_wsF : Nat → List Char → List Char
  | _, [] => []
  | 0, _ :: _ => []
  | fuel + 1, c :: cs =>
    if isWS c then ' ' :: collapse_wsF fuel (cs.dropWhile isWS)
    else c :: collapse_wsF fuel cs

/-- Python `re.sub(r"\s+", " ", t)`: each maximal whitespace run becomes a
single space. -/
def collapse_ws (l : List Char) : List Char := collapse_wsF l.length l

/-- Number of characters of `t` with code point below 128. -/
def ascii_count (t : Text) : Nat := (t.filter (fun c => decide (c.toNat < 128))).length

/-- The function `ascii_ratio` of src/app.py: `0.0` for the empty string,
otherwise the fraction of sub-128 code points (float division modelled as
exact rational division). -/
def ascii_ratio (t : Text) : ℚ :=
  if t.isEmpty then 0 else (ascii_count t : ℚ) / (t.length : ℚ)

/-- Python `str.lower()` restricted to the code points this program's keyword
and diacritic logic can meet: ASCII letters, Latin-1 uppercase letters, and the
precomposed Vietnamese uppercase letters of `VN_DIACRITIC_REGEX`; every other
code point is returned unchanged. -/
def lowerChar (c : Char) : Char :=
  let n := c.toNat
  if 65 ≤ n ∧ n ≤ 90 then Char.ofNat (n + 32)
  else if 0xC0 ≤ n ∧ n ≤ 0xDE ∧ n ≠ 0xD7 then Char.ofNat (n + 0x20)
  else if n = 0x102 ∨ n = 0x110 ∨ n = 0x128 ∨ n = 0x168 ∨ n = 0x1A0 ∨ n = 0x1AF then
    Char.ofNat (n + 1)
  else if 0x1EA0 ≤ n ∧ n ≤ 0x1EF8 ∧ n % 2 = 0 then Char.ofNat (n + 1)
  else c

/-- Python `text.lower()`. -/
def lowerT (t : Text) : Text := t.map lowerChar

/-- The character class of `VN_DIACRITIC_REGEX` in src/app.py. -/
def VN_DIACRITIC_CHARS : Text :=
  ("àáạảãâầấậẩẫăằắặẳẵèéẹẻẽêềếệểễìíịỉĩòóọỏõôồốộổỗơờớợởỡ" ++
   "ùúụủũưừứựửữỳýỵỷỹđÀÁẠẢÃÂẦẤẬẨẪĂẰẮẶẲẴÈÉẸẺẼÊỀẾỆỂỄ" ++
   "ÌÍỊỈĨÒÓỌỎÕÔỒỐỘỔỖƠỜỚỢỞỠÙÚỤỦŨƯỪỨỰỬỮỲÝỴỶỸĐ").data

/-- Python `VN_DIACRITIC_REGEX.search(text)` viewed as a boolean: does the text
contain a Vietnamese diacritic character? -/
def vn_search (t : Text) : Bool := t.any (fun c => VN_DIACRITIC_CHARS.contains c)

/-- The set `EN_STOPWORDS_SAMPLE` of src/app.py (a Python set literal; the
duplicate entry "into" is immaterial for membership). -/
def EN_STOPWORDS_SAMPLE : List Text :=
  (["the", "and", "to", "of", "a", "in", "is", "that", "for", "on", "with", "as",
    "by", "from", "this", "be", "are", "at", "or", "it", "an", "into", "over",
    "under", "about", "can", "scene", "character", "dialogue", "objective",
    "environment", "camera", "lighting", "transition", "audio", "vfx"]).map
    String.data

/-- Is the character an ASCII letter (the class `[A-Za-z]`)? -/
def is_ascii_alpha (c : Char) : Bool :=
  decide ((65 ≤ c.toNat ∧ c.toNat ≤ 90) ∨ (97 ≤ c.toNat ∧ c.toNat ≤ 122))

/-- The tokens `re.findall(r"[A-Za-z]+", text.lower())` of
`is_english_heuristic` in src/app.py. -/
def alpha_tokens (t : Text) : List Text := runsP is_ascii_alpha (lowerT t)

/-- The stopword hit count of `is_english_heuristic` in src/app.py:
`sum(1 for t in tokens if t in EN_STOPWORDS_SAMPLE)`. -/
def stopword_hits (t : Text) : Nat :=
  ((alpha_tokens t).filter (fun tok => EN_STOPWORDS_SAMPLE.contains tok)).length

/-- The function `is_english_heuristic` of src/app.py. -/
def is_english_heuristic (text : Text) : Bool :=
  if vn_search text then false
  else if ascii_ratio text < (85 / 100 : ℚ) then false
  else if (alpha_tokens text).isEmpty then false
  else decide (8 ≤ stopword_hits text)

/-- The external language detector: `Except.ok code` models `detect(text)`
returning a language code, `Except.error ()` models a raised exception
(including `langdetect`'s failure-to-identify exception). -/
abbrev Detector := Text → Except Unit String

/-- The function `is_english_langdetect` of src/app.py; the module-level
`LANGDETECT_AVAILABLE` flag and the imported `detect` function are passed
explicitly. -/
def is_english_langdetect (langdetect_available : Bool) (det : Detector)
    (text : Text) : Bool :=
  if !langdetect_available then false
  else
    match det text with
    | Except.ok code => code == "en"
    | Except.error _ => false

/-- The function `is_english` of src/app.py. -/
def is_english (langdetect_available : Bool) (det : Detector)
    (text : Text) (strict : Bool) : Bool :=
  if strict && langdetect_available then is_english_langdetect langdetect_available det text
  else is_english_heuristic text

namespace App

/-- The `hits` count of `looks_like_prompt` in src/app.py:
`sum(1 for k in keywords if k and k.lower() in text.lower())`. -/
def keyword_hits (keywords : List Text) (text : Text) : Nat :=
  (keywords.filter (fun k => !k.isEmpty && decide (List.IsInfix (lowerT k) (lowerT text)))).length

/-- The function `looks_like_prompt` of src/app.py; the module-level
`LANGDETECT_AVAILABLE` flag and detector are passed as the two trailing
arguments. -/
def looks_like_prompt (text : Text) (min_len : Int) (require_english : Bool)
    (strict_lang : Bool) (keywords : List Text) (min_keyword_hits : Int)
    (langdetect_available : Bool) (det : Detector) : Bool :=
  if (text.length : Int) < min_len then false
  else if require_english && !is_english langdetect_available det text strict_lang then false
  else if 0 < min_keyword_hits ∧ keywords ≠ [] then
    if (keyword_hits keywords text : Int) < min_keyword_hits then false else true
  else true

/-- The function `filter_prompts` of src/app.py (no relaxed fallback). -/
def filter_prompts (paragraphs : List Text) (min_len : Int) (require_english : Bool)
    (strict_lang : Bool) (keywords : List Text) (min_keyword_hits : Int)
    (langdetect_available : Bool) (det : Detector) : List Text :=
  paragraphs.filter (fun p =>
    looks_like_prompt p min_len require_english strict_lang keywords min_keyword_hits
      langdetect_available det)

/-- Paragraph extraction of `extract_paragraphs_from_docx` in src/app.py:
normalise each raw paragraph and keep the non-empty results (the raw strings
stand for the `p.text` values produced by the docx reader). -/
def extract_paragraphs (raws : List Text) : List Text :=
  (raws.map normalize_ws).filter (fun t => !t.isEmpty)

end App

namespace Streamlit

/-- The inline ASCII-ratio expression of src/streamlit_app.py:
`sum(1 for ch in text if ord(ch) < 128) / max(1, len(text))`. -/
def ascii_ratio (t : Text) : ℚ := (ascii_count t : ℚ) / ((max 1 t.length : Nat) : ℚ)

/-- The `kcount` expression of `looks_like_prompt` in src/streamlit_app.py:
`sum(1 for k in keywords if k and k.lower().strip() in text.lower())`. -/
def kcount (keywords : List Text) (text : Text) : Nat :=
  (keywords.filter (fun k =>
    !k.isEmpty && decide (List.IsInfix (stripWS (lowerT k)) (lowerT text)))).length

/-- The `puncts` expression of src/streamlit_app.py:
`len(re.findall(r"[.!?]", text))`. -/
def punct_count (text : Text) : Nat :=
  (text.filter (fun c => c == '.' || c == '!' || c == '?')).length

/-- The function `looks_like_prompt` of src/streamlit_app.py. -/
def looks_like_prompt (text : Text) (min_len : Int) (min_ascii_ratio : ℚ)
    (keywords : List Text) (min_keyword_hits : Int) (max_puncts : Int) : Bool :=
  if (text.length : Int) < min_len then false
  else
    decide (ascii_ratio text ≥ min_ascii_ratio) &&
    decide ((kcount keywords text : Int) ≥ min_keyword_hits) &&
    decide ((punct_count text : Int) ≤ max_puncts)

/-- Python `max(300, int(min_len * 0.75))` of the fallback branch in
src/streamlit_app.py, in exact integer arithmetic (`int` truncates toward
zero). -/
def fallback_min_len (min_len : Int) : Int := max 300 ((3 * min_len).tdiv 4)

/-- The per-paragraph condition of the fallback list comprehension in
`filter_prompts` of src/streamlit_app.py:
`len(p) >= max(300, int(min_len * 0.75)) and ascii_ratio(p) >= min(min_ascii_ratio, 0.7)`. -/
def fallback_pred (min_len : Int) (min_ascii_ratio : ℚ) (p : Text) : Bool :=
  decide ((p.length : Int) ≥ fallback_min_len min_len) &&
  decide (ascii_ratio p ≥ min min_ascii_ratio (7 / 10 : ℚ))

/-- The function `filter_prompts` of src/streamlit_app.py (the `keywords=None`
default, replaced by the module's default keyword list, is resolved by the
caller here). -/
def filter_prompts (paragraphs : List Text) (min_len : Int) (min_ascii_ratio : ℚ)
    (keywords : List Text) (min_keyword_hits : Int) (max_puncts : Int)
    (relax_if_empty : Bool) : List Text :=
  let prompts := paragraphs.filter (fun p =>
    looks_like_prompt p min_len min_ascii_ratio keywords min_keyword_hits max_puncts)
  if relax_if_empty && prompts.isEmpty then
    paragraphs.filter (fallback_pred min_len min_ascii_ratio)
  else prompts

/-- Whether `filter_prompts` takes its relaxed branch. The Python function
exposes no such flag in its return value; this observer recomputes the branch
condition `relax_if_empty and len(prompts) == 0`. -/
def fallback_used (paragraphs : List Text) (min_len : Int) (min_ascii_ratio : ℚ)
    (keywords : List Text) (min_keyword_hits : Int) (max_puncts : Int)
    (relax_if_empty : Bool) : Bool :=
  relax_if_empty && (paragraphs.filter (fun p =>
    looks_like_prompt p min_len min_ascii_ratio keywords min_keyword_hits max_puncts)).isEmpty

/-- Paragraph extraction of `extract_paragraphs_from_docx_bytes` in
src/streamlit_app.py: `re.sub(r"\s+", " ", para_text).strip()`, keeping the
non-empty results (the raw strings stand for the concatenated run texts). -/
def extract_paragraphs (raws : List Text) : List Text :=
  (raws.map (fun t => stripWS (collapse_ws t))).filter (fun t => !t.isEmpty)

end Streamlit

/-! ## Claim theorems -/

attribute [local semireducible] Rat.mul Rat.inv Rat.add Rat.sub

set_option maxRecDepth 40000

/-- C10: the ASCII-ratio computation is total and never divides by zero. The
batch variant (`ascii_ratio`, src/app.py) returns 0 on the empty string through
an explicit emptiness branch, the streamlit variant guards its divisor with
`max(1, len)` and also yields 0 there, and on every string both results lie in
the closed interval [0, 1]. -/
theorem ascii_ratio_total_and_bounded :
    ascii_ratio [] = 0 ∧ Streamlit.ascii_ratio [] = 0 ∧
    ∀ t : Text, 0 ≤ ascii_ratio t ∧ ascii_ratio t ≤ 1 ∧
      0 ≤ Streamlit.ascii_ratio t ∧ Streamlit.ascii_ratio t ≤ 1 := by
  refine ⟨rfl, by norm_num [Streamlit.ascii_ratio, ascii_count], ?_⟩
  intro t
  have hcount : (ascii_count t : ℚ) ≤ (t.length : ℚ) :=
    Nat.cast_le.mpr (List.length_filter_le _ t)
  refine ⟨?_, ?_, ?_, ?_⟩
  · unfold ascii_ratio
    split
    · exact le_refl 0
    · exact div_nonneg (Nat.cast_nonneg _) (Nat.cast_nonneg _)
  · unfold ascii_ratio
    split
    · exact zero_le_one
    · rename_i hne
      have hlen : 0 < t.length := by
        cases t with
        | nil => simp at hne
        | cons a l => exact Nat.succ_pos _
      have hlen' : (0 : ℚ) < (t.length : ℚ) := by exact_mod_cast hlen
      exact (div_le_one hlen').mpr hcount
  · exact div_nonneg (Nat.cast_nonneg _) (Nat.cast_nonneg _)
  · unfold Streamlit.ascii_ratio
    have hpos : (0 : ℚ) < ((max 1 t.length : Nat) : ℚ) := by
      have : 0 < max 1 t.length := Nat.lt_of_lt_of_le Nat.one_pos (Nat.le_max_left _ _)
      exact_mod_cast this
    refine (div_le_one hpos).mpr ?_
    calc (ascii_count t : ℚ) ≤ (t.length : ℚ) := hcount
      _ ≤ ((max 1 t.length : Nat) : ℚ) := Nat.cast_le.mpr (Nat.le_max_right _ _)

/-- C3: a text whose length in Unicode code points is strictly below the
configured minimum is rejected by both classifier variants, regardless of every
other configuration field and of the text's other properties. -/
theorem short_text_rejected (text : Text) (min_len : Int)
    (require_english strict_lang langdetect_available : Bool) (det : Detector)
    (keywords keywords2 : List Text) (min_keyword_hits min_keyword_hits2 : Int)
    (min_ascii_ratio : ℚ) (max_puncts : Int)
    (h : (text.length : Int) < min_len) :
    App.looks_like_prompt text min_len require_english strict_lang keywords
      min_keyword_hits langdetect_available det = false ∧
    Streamlit.looks_like_prompt text min_len min_ascii_ratio keywords2
      min_keyword_hits2 max_puncts = false := by
  constructor
  · unfold App.looks_like_prompt
    simp [h]
  · unfold Streamlit.looks_like_prompt
    simp [h]

/-- Witness for C3 at text "ab" and minimum length 5. -/
theorem short_text_rejected_witness :
    ((("ab").data.length : Int) < 5) ∧
    App.looks_like_prompt ("ab").data 5 true true [] 3 true
      (fun _ => Except.error ()) = false ∧
    Streamlit.looks_like_prompt ("ab").data 5 (3/4) [] 3 40 = false := by
  refine ⟨by decide, ?_, ?_⟩
  · exact (short_text_rejected ("ab").data 5 true true true (fun _ => Except.error ())
      [] [] 3 3 (3/4) 40 (by decide)).1
  · exact (short_text_rejected ("ab").data 5 true true true (fun _ => Except.error ())
      [] [] 3 3 (3/4) 40 (by decide)).2

/-- C9: the streamlit classifier accepts a text only if the number of
occurrences of '.', '!' and '?' in it is at most `max_puncts`. -/
theorem punctuation_ceiling (text : Text) (min_len : Int) (min_ascii_ratio : ℚ)
    (keywords : List Text) (min_keyword_hits max_puncts : Int)
    (h : Streamlit.looks_like_prompt text min_len min_ascii_ratio keywords
      min_keyword_hits max_puncts = true) :
    (Streamlit.punct_count text : Int) ≤ max_puncts := by
  unfold Streamlit.looks_like_prompt at h
  split at h
  · exact absurd h (by simp)
  · simp only [Bool.and_eq_true, decide_eq_true_eq] at h
    exact h.2

/-- Witness for C9 at text "ab" with ceiling 40. -/
theorem punctuation_ceiling_witness :
    Streamlit.looks_like_prompt ("ab").data 0 0 [] 0 40 = true ∧
    (Streamlit.punct_count ("ab").data : Int) ≤ 40 :=
  ⟨by decide, punctuation_ceiling ("ab").data 0 0 [] 0 40 (by decide)⟩

/-- C5: the heuristic English check returns false on any text containing a
character of the Vietnamese diacritic set; otherwise it returns false when the
ASCII ratio is below 0.85; otherwise it returns true exactly when at least 8 of
the lowercased alphabetic tokens of the text lie in the fixed stopword and
domain-word set. -/
theorem heuristic_english_structure (t : Text) :
    (vn_search t = true → is_english_heuristic t = false) ∧
    (vn_search t = false → ascii_ratio t < (85 / 100 : ℚ) →
      is_english_heuristic t = false) ∧
    (vn_search t = false → ¬ ascii_ratio t < (85 / 100 : ℚ) →
      (is_english_heuristic t = true ↔ 8 ≤ stopword_hits t)) := by
  refine ⟨?_, ?_, ?_⟩
  · intro hvn
    simp [is_english_heuristic, hvn]
  · intro hvn hr
    simp [is_english_heuristic, hvn, hr]
  · intro hvn hr
    unfold is_english_heuristic
    rw [hvn]
    simp only [Bool.false_eq_true, if_false, if_neg hr]
    by_cases he : (alpha_tokens t).isEmpty
    · have he' : alpha_tokens t = [] := by
        cases halt : alpha_tokens t with
        | nil => rfl
        | cons a l => rw [halt] at he; simp at he
      have hz : stopword_hits t = 0 := by
        unfold stopword_hits
        rw [he']
        rfl
      rw [he']
      simp [hz]
    · simp [he]

/-- Witness for C5 on a text with eight stopword tokens, no diacritics and
ASCII ratio 1. -/
theorem heuristic_english_structure_witness :
    vn_search ("the and to of a in is that").data = false ∧
    ¬ ascii_ratio ("the and to of a in is that").data < (85 / 100 : ℚ) ∧
    8 ≤ stopword_hits ("the and to of a in is that").data ∧
    is_english_heuristic ("the and to of a in is that").data = true := by
  refine ⟨by decide, by decide, by decide, ?_⟩
  exact ((heuristic_english_structure ("the and to of a in is that").data).2.2
    (by decide) (by decide)).mpr (by decide)

/-- C7: with the strict external-detector strategy, a detector exception is
caught and becomes a negative English classification; the affected paragraph is
the only one dropped and the batch filter still processes the surrounding
paragraphs (it never aborts); and when the detector is unavailable,
classification falls back to the heuristic strategy. -/
theorem detector_failure_policy (det : Detector) (text : Text) (strict : Bool)
    (min_len : Int) (keywords : List Text) (min_keyword_hits : Int) :
    (det text = Except.error () → is_english_langdetect true det text = false) ∧
    (is_english false det text strict = is_english_heuristic text) ∧
    (det text = Except.error () → ∀ pre post : List Text,
      App.filter_prompts (pre ++ text :: post) min_len true true keywords
        min_keyword_hits true det =
      App.filter_prompts pre min_len true true keywords min_keyword_hits true det ++
      App.filter_prompts post min_len true true keywords min_keyword_hits true det) := by
  refine ⟨?_, ?_, ?_⟩
  · intro herr
    unfold is_english_langdetect
    rw [herr]
    rfl
  · unfold is_english
    simp
  · intro herr pre post
    have heng : is_english true det text true = false := by
      unfold is_english is_english_langdetect
      rw [herr]
      rfl
    have hlp : App.looks_like_prompt text min_len true true keywords
        min_keyword_hits true det = false := by
      unfold App.looks_like_prompt
      split
      · rfl
      · rw [heng]
        simp
    unfold App.filter_prompts
    rw [List.filter_append, List.filter_cons, hlp]
    simp

/-- Witness for C7 with an always-raising detector on the one-paragraph batch
["x"]. -/
theorem detector_failure_policy_witness :
    (fun _ : Text => (Except.error () : Except Unit String)) ("x").data
      = Except.error () ∧
    is_english_langdetect true (fun _ => Except.error ()) ("x").data = false ∧
    App.filter_prompts [("x").data] 0 true true [] 0 true
      (fun _ => Except.error ()) = [] := by
  have h := detector_failure_policy (fun _ => Except.error ()) ("x").data true 0 [] 0
  refine ⟨rfl, h.1 rfl, ?_⟩
  have h3 := h.2.2 rfl [] []
  simpa [App.filter_prompts] using h3

/-- Branch-level characterization of `Streamlit.filter_prompts`, definitionally
equal to it (zeta reduction of the local `prompts`). -/
theorem Streamlit.filter_prompts_eq (paragraphs : List Text) (min_len : Int)
    (min_ascii_ratio : ℚ) (keywords : List Text)
    (min_keyword_hits max_puncts : Int) (relax_if_empty : Bool) :
    Streamlit.filter_prompts paragraphs min_len min_ascii_ratio keywords
      min_keyword_hits max_puncts relax_if_empty =
    if (relax_if_empty && (paragraphs.filter (fun p =>
          Streamlit.looks_like_prompt p min_len min_ascii_ratio keywords
            min_keyword_hits max_puncts)).isEmpty) = true
    then paragraphs.filter (Streamlit.fallback_pred min_len min_ascii_ratio)
    else paragraphs.filter (fun p =>
          Streamlit.looks_like_prompt p min_len min_ascii_ratio keywords
            min_keyword_hits max_puncts) := rfl

theorem count_filter_eq {pred : Text → Bool} {a : Text} (h : pred a = true) :
    ∀ l : List Text, (l.filter pred).count a = l.count a := by
  intro l
  induction l with
  | nil => rfl
  | cons b l ih =>
    rw [List.filter_cons]
    by_cases hb : pred b = true
    · rw [if_pos hb, List.count_cons, List.count_cons, ih]
    · have hne : (b == a) = false := by
        by_cases hba : b = a
        · subst hba
          exact absurd h hb
        · simp [hba]
      rw [if_neg hb, List.count_cons, ih, hne]
      simp

/-- C2: for every raw paragraph sequence and configuration, each filter variant
returns an order-preserving subsequence of its normalized, non-empty input
(whichever of the primary and fallback branches produced it), and never
deduplicates: every accepted paragraph keeps its full multiplicity. -/
theorem filter_preserves_order (raws : List Text) (min_len : Int)
    (require_english strict_lang langdetect_available : Bool) (det : Detector)
    (keywords : List Text) (min_keyword_hits : Int)
    (min_ascii_ratio : ℚ) (max_puncts : Int) (relax_if_empty : Bool) :
    (App.filter_prompts (App.extract_paragraphs raws) min_len require_english
        strict_lang keywords min_keyword_hits langdetect_available det).Sublist
      (App.extract_paragraphs raws) ∧
    (Streamlit.filter_prompts (Streamlit.extract_paragraphs raws) min_len
        min_ascii_ratio keywords min_keyword_hits max_puncts
        relax_if_empty).Sublist
      (Streamlit.extract_paragraphs raws) ∧
    (∀ p, p ∈ App.filter_prompts (App.extract_paragraphs raws) min_len
        require_english strict_lang keywords min_keyword_hits
        langdetect_available det →
      (App.filter_prompts (App.extract_paragraphs raws) min_len require_english
        strict_lang keywords min_keyword_hits langdetect_available det).count p
        = (App.extract_paragraphs raws).count p) ∧
    (∀ p, p ∈ Streamlit.filter_prompts (Streamlit.extract_paragraphs raws)
        min_len min_ascii_ratio keywords min_keyword_hits max_puncts
        relax_if_empty →
      (Streamlit.filter_prompts (Streamlit.extract_paragraphs raws) min_len
        min_ascii_ratio keywords min_keyword_hits max_puncts
        relax_if_empty).count p
        = (Streamlit.extract_paragraphs raws).count p) := by
  refine ⟨List.filter_sublist _, ?_, ?_, ?_⟩
  · rw [Streamlit.filter_prompts_eq]
    split
    · exact List.filter_sublist _
    · exact List.filter_sublist _
  · intro p hp
    unfold App.filter_prompts at hp ⊢
    have hpred := (List.mem_filter.mp hp).2
    exact count_filter_eq hpred _
  · intro p hp
    rw [Streamlit.filter_prompts_eq] at hp ⊢
    split at hp
    · rename_i hcond
      rw [if_pos hcond]
      have hpred := (List.mem_filter.mp hp).2
      exact count_filter_eq hpred _
    · rename_i hcond
      rw [if_neg hcond]
      have hpred := (List.mem_filter.mp hp).2
      exact count_filter_eq hpred _

/-- Witness for C2 on the raw input ["ab", "  "] (the second paragraph
normalizes away) with a trivially passing configuration. -/
theorem filter_preserves_order_witness :
    (App.filter_prompts (App.extract_paragraphs [("ab").data, ("  ").data]) 0
        false false [] 0 false (fun _ => Except.error ())).Sublist
      (App.extract_paragraphs [("ab").data, ("  ").data]) ∧
    (App.filter_prompts (App.extract_paragraphs [("ab").data, ("  ").data]) 0
        false false [] 0 false (fun _ => Except.error ())).count ("ab").data
      = (App.extract_paragraphs [("ab").data, ("  ").data]).count ("ab").data := by
  have h := filter_preserves_order [("ab").data, ("  ").data] 0 false false false
    (fun _ => Except.error ()) [] 0 0 40 true
  exact ⟨h.1, h.2.2.1 ("ab").data (by decide)⟩

/-- C4 (counterexample): in the streamlit variant an empty keyword list does
NOT disable the keyword check: with an empty keyword list and threshold 1 the
classifier rejects a text that passes every other check (and accepts it once
the threshold is 0), so "the check is disabled (never causes rejection) when
the keyword set is empty" is false of the code. -/
theorem keyword_check_counterexample :
    Streamlit.looks_like_prompt ("aaaa").data 1 (1/2) [] 1 5 = false ∧
    Streamlit.looks_like_prompt ("aaaa").data 1 (1/2) [] 0 5 = true := by
  constructor
  · decide
  · decide

/-- C4 (amended): in both variants the keyword count is case-insensitive (it
depends on the text only through its lowercasing) and counts each configured
keyword at most once however often it occurs. In the app variant the check is
skipped when the threshold is not positive or the keyword list is empty, and
otherwise (with the earlier checks passing) rejects exactly when the count is
below the threshold. In the streamlit variant the `count >= threshold`
conjunct always applies, so a non-positive threshold disables it, but an empty
keyword list with a positive threshold rejects every text. -/
theorem keyword_check_behaviour (keywords : List Text) (text text2 : Text)
    (min_len : Int) (require_english strict_lang langdetect_available : Bool)
    (det : Detector) (min_keyword_hits max_puncts : Int) (min_ascii_ratio : ℚ) :
    (lowerT text = lowerT text2 →
      App.keyword_hits keywords text = App.keyword_hits keywords text2 ∧
      Streamlit.kcount keywords text = Streamlit.kcount keywords text2) ∧
    App.keyword_hits keywords text ≤ keywords.length ∧
    Streamlit.kcount keywords text ≤ keywords.length ∧
    (¬ (text.length : Int) < min_len →
      (require_english = true →
        is_english langdetect_available det text strict_lang = true) →
      (min_keyword_hits ≤ 0 ∨ keywords = []) →
      App.looks_like_prompt text min_len require_english strict_lang keywords
        min_keyword_hits langdetect_available det = true) ∧
    (¬ (text.length : Int) < min_len →
      Streamlit.ascii_ratio text ≥ min_ascii_ratio →
      (Streamlit.punct_count text : Int) ≤ max_puncts →
      min_keyword_hits ≤ 0 →
      Streamlit.looks_like_prompt text min_len min_ascii_ratio keywords
        min_keyword_hits max_puncts = true) ∧
    (¬ (text.length : Int) < min_len →
      (require_english = true →
        is_english langdetect_available det text strict_lang = true) →
      0 < min_keyword_hits → keywords ≠ [] →
      (App.looks_like_prompt text min_len require_english strict_lang keywords
          min_keyword_hits langdetect_available det = true ↔
        min_keyword_hits ≤ (App.keyword_hits keywords text : Int))) ∧
    (¬ (text.length : Int) < min_len →
      Streamlit.ascii_ratio text ≥ min_ascii_ratio →
      (Streamlit.punct_count text : Int) ≤ max_puncts →
      (Streamlit.looks_like_prompt text min_len min_ascii_ratio keywords
          min_keyword_hits max_puncts = true ↔
        min_keyword_hits ≤ (Streamlit.kcount keywords text : Int))) := by
  have heng : ∀ h2 : require_english = true →
      is_english langdetect_available det text strict_lang = true,
      (require_english && !is_english langdetect_available det text strict_lang)
        = false := by
    intro h2
    cases hre : require_english with
    | false => rfl
    | true => rw [h2 hre]; rfl
  refine ⟨?_, ?_, ?_, ?_, ?_, ?_, ?_⟩
  · intro hlow
    constructor
    · unfold App.keyword_hits
      rw [hlow]
    · unfold Streamlit.kcount
      rw [hlow]
  · exact List.length_filter_le _ _
  · exact List.length_filter_le _ _
  · intro hlen h2 hdis
    unfold App.looks_like_prompt
    rw [if_neg hlen, heng h2]
    simp only [Bool.false_eq_true, if_false]
    rw [if_neg]
    rintro ⟨hpos, hne⟩
    rcases hdis with h | h
    · exact absurd hpos (by omega)
    · exact hne h
  · intro hlen hratio hpunct hth
    unfold Streamlit.looks_like_prompt
    rw [if_neg hlen]
    have : (min_keyword_hits ≤ (Streamlit.kcount keywords text : Int)) := by
      have : (0 : Int) ≤ (Streamlit.kcount keywords text : Int) := Int.natCast_nonneg _
      omega
    simp [hratio, hpunct, this]
  · intro hlen h2 hpos hne
    unfold App.looks_like_prompt
    rw [if_neg hlen, heng h2]
    simp only [Bool.false_eq_true, if_false]
    rw [if_pos ⟨hpos, hne⟩]
    constructor
    · intro h
      split at h
      · exact absurd h (by simp)
      · omega
    · intro h
      rw [if_neg (by omega)]
  · intro hlen hratio hpunct
    unfold Streamlit.looks_like_prompt
    rw [if_neg hlen]
    simp [hratio, hpunct]

/-- Witness for C4 (amended) at text "Camera x", keywords ["camera"],
threshold 1: the classifier accepts and the count is 1. -/
theorem keyword_check_behaviour_witness :
    App.looks_like_prompt ("Camera x").data 1 false false [("camera").data] 1
      false (fun _ => Except.error ()) = true ∧
    Streamlit.looks_like_prompt ("Camera x").data 1 (1/2) [("camera").data] 1
      40 = true := by
  have h := keyword_check_behaviour [("camera").data] ("Camera x").data
    ("Camera x").data 1 false false false (fun _ => Except.error ()) 1 40 (1/2)
  constructor
  · exact (h.2.2.2.2.2.1 (by decide) (by simp) (by decide) (by decide)).mpr
      (by decide)
  · exact (h.2.2.2.2.2.2 (by decide) (by decide) (by decide)).mpr (by decide)

/-- A 300-character ASCII paragraph, long enough to clear the fixed fallback
length floor of 300. -/
def para300 : Text := List.replicate 300 'a'

/-- A 300-character paragraph with 225 ASCII characters: its ASCII ratio is
exactly 3/4. -/
def para300q : Text := List.replicate 225 'a' ++ List.replicate 75 'à'

/-- C6 (counterexample): `filter_prompts` returns no fallback-used flag. Two
runs on the same input, one accepting through the primary pass and one through
the fallback pass, return the very same value, so whether the fallback path was
taken cannot be part of (nor recovered from) the returned outcome. -/
theorem no_fallback_flag_counterexample :
    Streamlit.filter_prompts [para300] 300 (1/2) [] 0 400 true =
      Streamlit.filter_prompts [para300] 300 (1/2) [] 1 400 true ∧
    Streamlit.fallback_used [para300] 300 (1/2) [] 0 400 true = false ∧
    Streamlit.fallback_used [para300] 300 (1/2) [] 1 400 true = true := by
  refine ⟨?_, by decide, by decide⟩
  decide

/-- C6 (amended): both filter variants return only the ordered accepted list of
paragraphs — the app variant the plain filtered list (it has no fallback at
all), the streamlit variant the primary list or, when that is empty and
fallback is enabled, the relaxed list — and no fallback-used flag is part of
either return value. -/
theorem filter_returns_only_list (paragraphs : List Text) (min_len : Int)
    (require_english strict_lang langdetect_available : Bool) (det : Detector)
    (keywords : List Text) (min_keyword_hits : Int)
    (min_ascii_ratio : ℚ) (max_puncts : Int) (relax_if_empty : Bool) :
    App.filter_prompts paragraphs min_len require_english strict_lang keywords
        min_keyword_hits langdetect_available det =
      paragraphs.filter (fun p => App.looks_like_prompt p min_len
        require_english strict_lang keywords min_keyword_hits
        langdetect_available det) ∧
    Streamlit.filter_prompts paragraphs min_len min_ascii_ratio keywords
        min_keyword_hits max_puncts relax_if_empty =
      (if Streamlit.fallback_used paragraphs min_len min_ascii_ratio keywords
            min_keyword_hits max_puncts relax_if_empty
       then paragraphs.filter (Streamlit.fallback_pred min_len min_ascii_ratio)
       else paragraphs.filter (fun p => Streamlit.looks_like_prompt p min_len
         min_ascii_ratio keywords min_keyword_hits max_puncts)) := by
  constructor
  · rfl
  · rw [Streamlit.filter_prompts_eq]
    unfold Streamlit.fallback_used
    rfl

/-- C1 (counterexample): the fallback ASCII threshold is not "the configured
threshold reduced by 0.1 and floored at 0.7". With a configured threshold of
0.9 the claimed relaxed threshold would be max(0.7, 0.8) = 0.8, yet the code's
fallback pass accepts a paragraph of ASCII ratio 3/4 < 0.8 (the code's actual
threshold is min(0.9, 0.7) = 0.7). -/
theorem fallback_threshold_counterexample :
    Streamlit.filter_prompts [para300q] 400 (9/10) [] 3 40 true = [para300q] ∧
    ¬ Streamlit.ascii_ratio para300q ≥ max (7/10 : ℚ) ((9/10 : ℚ) - (1/10 : ℚ)) := by
  constructor
  · decide
  · decide

/-- C1 (amended): for every non-empty input with fallback enabled, the relaxed
pass runs exactly when the primary pass accepts zero paragraphs; it uses the
minimum length max(300, int(0.75 * min_len)) and the ASCII threshold
min(min_ascii_ratio, 0.7) — never above the primary ASCII threshold, and
strictly below the primary minimum length whenever that minimum exceeds 300 —
it applies no keyword or punctuation constraints (its predicate depends only on
length and ASCII ratio), and it never chains a further fallback (the relaxed
list is returned even when it is itself empty). -/
theorem fallback_policy (paragraphs : List Text) (min_len : Int)
    (min_ascii_ratio : ℚ) (keywords : List Text)
    (min_keyword_hits max_puncts : Int)
    (hne : paragraphs ≠ []) :
    (Streamlit.filter_prompts paragraphs min_len min_ascii_ratio keywords
        min_keyword_hits max_puncts true =
      if (paragraphs.filter (fun p => Streamlit.looks_like_prompt p min_len
            min_ascii_ratio keywords min_keyword_hits max_puncts)).isEmpty
      then paragraphs.filter (Streamlit.fallback_pred min_len min_ascii_ratio)
      else paragraphs.filter (fun p => Streamlit.looks_like_prompt p min_len
            min_ascii_ratio keywords min_keyword_hits max_puncts)) ∧
    min min_ascii_ratio (7/10 : ℚ) ≤ min_ascii_ratio ∧
    (300 < min_len → Streamlit.fallback_min_len min_len < min_len) ∧
    (∀ p q : Text, p.length = q.length →
      Streamlit.ascii_ratio p = Streamlit.ascii_ratio q →
      Streamlit.fallback_pred min_len min_ascii_ratio p =
        Streamlit.fallback_pred min_len min_ascii_ratio q) := by
  refine ⟨?_, min_le_left _ _, ?_, ?_⟩
  · rw [Streamlit.filter_prompts_eq]
    rw [Bool.true_and]
  · intro hgt
    unfold Streamlit.fallback_min_len
    have hdiv := Int.tdiv_add_tmod (3 * min_len) 4
    have hnn : 0 ≤ Int.tmod (3 * min_len) 4 :=
      Int.tmod_nonneg 4 (by omega)
    have hlt : Int.tmod (3 * min_len) 4 < 4 :=
      Int.tmod_lt_of_pos (3 * min_len) (by omega)
    omega
  · intro p q hlen hratio
    unfold Streamlit.fallback_pred
    rw [hlen, hratio]

/-- Witness for C1 (amended) on the input ["ab"] with a trivially passing
primary configuration and min_len = 400 > 300. -/
theorem fallback_policy_witness :
    ([("ab").data] : List Text) ≠ [] ∧
    min (3/4 : ℚ) (7/10 : ℚ) ≤ (3/4 : ℚ) ∧
    Streamlit.fallback_min_len 400 < 400 := by
  have h := fallback_policy [("ab").data] 400 (3/4) [] 0 40 (by decide)
  exact ⟨by decide, h.2.1, h.2.2.1 (by decide)⟩

/-! Helper development for C8: `normalize_ws` is idempotent. A list of tokens
is called good when each token is non-empty and whitespace-free; `pysplit`
produces good tokens, joining good tokens with single spaces is inverted by
`pysplit`, and `stripWS` is the identity on such joins. -/

theorem runsPF_mem (p : Char → Bool) : ∀ (fuel : Nat) (l : List Char),
    ∀ t ∈ runsPF p fuel l, t ≠ [] ∧ ∀ c ∈ t, p c = true := by
  intro fuel
  induction fuel with
  | zero =>
    intro l t ht
    cases l <;> simp [runsPF] at ht
  | succ fuel ih =>
    intro l t ht
    cases l with
    | nil => simp [runsPF] at ht
    | cons c cs =>
      simp only [runsPF] at ht
      by_cases hc : p c
      · rw [if_pos hc] at ht
        rcases List.mem_cons.mp ht with h | h
        · subst h
          refine ⟨by simp, ?_⟩
          intro d hd
          rcases List.mem_cons.mp hd with h | h
          · subst h; exact hc
          · exact List.mem_takeWhile_imp h
        · exact ih _ t h
      · rw [if_neg hc] at ht
        exact ih _ t ht

theorem runsP_mem (p : Char → Bool) (l : List Char) :
    ∀ t ∈ runsP p l, t ≠ [] ∧ ∀ c ∈ t, p c = true :=
  runsPF_mem p l.length l

theorem runsP_all_pos {p : Char → Bool} {t : List Char} (hne : t ≠ [])
    (h : ∀ c ∈ t, p c = true) : runsP p t = [t] := by
  cases t with
  | nil => exact absurd rfl hne
  | cons c t =>
    rw [runsP_cons_pos (h c (List.mem_cons_self c t))]
    have htake : t.takeWhile p = t :=
      List.takeWhile_eq_self_iff.mpr (fun x hx => h x (List.mem_cons_of_mem c hx))
    have hdrop : t.dropWhile p = [] :=
      List.dropWhile_eq_nil_iff.mpr (fun x hx => h x (List.mem_cons_of_mem c hx))
    rw [htake, hdrop, runsP_nil]

theorem runsP_append_sep {p : Char → Bool} {t : List Char} (hne : t ≠ [])
    (h : ∀ c ∈ t, p c = true) {b : Char} (hb : p b = false) (r : List Char) :
    runsP p (t ++ b :: r) = t :: runsP p r := by
  cases t with
  | nil => exact absurd rfl hne
  | cons c t =>
    rw [List.cons_append, runsP_cons_pos (h c (List.mem_cons_self c t))]
    have hall : ∀ x ∈ t, p x := fun x hx => h x (List.mem_cons_of_mem c hx)
    rw [List.takeWhile_append_of_pos hall, List.dropWhile_append_of_pos hall]
    rw [List.takeWhile_cons_of_neg (by simp [hb]), List.append_nil]
    rw [List.dropWhile_cons_of_neg (by simp [hb])]
    rw [runsP_cons_neg hb]

/-- A good token list: every token is non-empty and contains no whitespace. -/
def GoodToks (ts : List Text) : Prop :=
  ∀ t ∈ ts, t ≠ [] ∧ ∀ c ∈ t, isWS c = false

theorem pysplit_good (s : Text) : GoodToks (pysplit s) := by
  intro t ht
  have h := runsP_mem (fun c => !isWS c) s t ht
  exact ⟨h.1, fun c hc => by simpa using h.2 c hc⟩

theorem pysplit_joinSp : ∀ ts : List Text, GoodToks ts → pysplit (joinSp ts) = ts := by
  intro ts
  induction ts with
  | nil => intro _; rfl
  | cons t ts ih =>
    intro hgood
    have ht := hgood t (List.mem_cons_self t ts)
    have htp : ∀ c ∈ t, (fun c => !isWS c) c = true := by
      intro c hc
      simpa using ht.2 c hc
    cases ts with
    | nil =>
      show pysplit t = [t]
      exact runsP_all_pos ht.1 htp
    | cons u ts =>
      show pysplit (t ++ ' ' :: joinSp (u :: ts)) = t :: u :: ts
      unfold pysplit
      rw [runsP_append_sep ht.1 htp (by decide) (joinSp (u :: ts))]
      have ihgood : GoodToks (u :: ts) :=
        fun x hx => hgood x (List.mem_cons_of_mem t hx)
      exact congrArg (fun l => t :: l) (ih ihgood)

theorem joinSp_cons_of_ne_nil {ts : List Text} (h : ts ≠ []) (t : Text) :
    joinSp (t :: ts) = t ++ ' ' :: joinSp ts := by
  cases ts with
  | nil => exact absurd rfl h
  | cons u ts => rfl

theorem joinSp_append_single : ∀ (L : List Text) (x : Text), L ≠ [] →
    joinSp (L ++ [x]) = joinSp L ++ ' ' :: x := by
  intro L
  induction L with
  | nil => intro x h; exact absurd rfl h
  | cons a L ih =>
    intro x _
    cases L with
    | nil => rfl
    | cons b L =>
      rw [List.cons_append, joinSp_cons_of_ne_nil (by simp) a,
        joinSp_cons_of_ne_nil (by simp) a, ih x (by simp), List.append_assoc]
      rfl

theorem reverse_joinSp : ∀ ts : List Text,
    (joinSp ts).reverse = joinSp ((ts.map List.reverse).reverse) := by
  intro ts
  induction ts with
  | nil => rfl
  | cons t ts ih =>
    cases ts with
    | nil => rfl
    | cons u ts =>
      have hM : ((u :: ts).map List.reverse).reverse ≠ [] := by simp
      have h1 : joinSp (t :: u :: ts) = t ++ ' ' :: joinSp (u :: ts) := rfl
      have h2 : ((t :: u :: ts).map List.reverse).reverse =
          ((u :: ts).map List.reverse).reverse ++ [t.reverse] := by
        rw [List.map_cons, List.reverse_cons]
      rw [h1, List.reverse_append, List.reverse_cons, ih, h2,
        joinSp_append_single _ _ hM]
      simp

theorem good_reverse {ts : List Text} (h : GoodToks ts) :
    GoodToks ((ts.map List.reverse).reverse) := by
  intro t ht
  rw [List.mem_reverse, List.mem_map] at ht
  rcases ht with ⟨u, hu, rfl⟩
  have hgu := h u hu
  refine ⟨by simpa using hgu.1, ?_⟩
  intro c hc
  exact hgu.2 c (List.mem_reverse.mp hc)

theorem dropWhile_joinSp {ts : List Text} (h : GoodToks ts) :
    (joinSp ts).dropWhile isWS = joinSp ts := by
  cases ts with
  | nil => rfl
  | cons t ts =>
    have ht := h t (List.mem_cons_self t ts)
    obtain ⟨c, t', rfl⟩ : ∃ c t', t = c :: t' := by
      cases t with
      | nil => exact absurd rfl ht.1
      | cons c t' => exact ⟨c, t', rfl⟩
    have hc : isWS c = false := ht.2 c (List.mem_cons_self c t')
    cases ts with
    | nil =>
      show (c :: t').dropWhile isWS = c :: t'
      exact List.dropWhile_cons_of_neg (by simp [hc])
    | cons u ts =>
      rw [joinSp_cons_of_ne_nil (by simp) (c :: t'), List.cons_append]
      exact List.dropWhile_cons_of_neg (by simp [hc])

theorem stripWS_joinSp {ts : List Text} (h : GoodToks ts) :
    stripWS (joinSp ts) = joinSp ts := by
  unfold stripWS
  rw [dropWhile_joinSp h, reverse_joinSp, dropWhile_joinSp (good_reverse h),
    ← reverse_joinSp, List.reverse_reverse]

theorem normalize_ws_eq_joinSp (s : Text) :
    normalize_ws s = joinSp (pysplit s) := by
  unfold normalize_ws
  exact stripWS_joinSp (pysplit_good s)

/-- C8: the whitespace normalizer of src/app.py (split on any whitespace,
rejoin with single spaces, trim) is idempotent:
`normalize_ws (normalize_ws s) = normalize_ws s` for every string `s`. -/
theorem normalize_ws_idempotent (s : Text) :
    normalize_ws (normalize_ws s) = normalize_ws s := by
  calc normalize_ws (normalize_ws s)
      = normalize_ws (joinSp (pysplit s)) := by rw [normalize_ws_eq_joinSp s]
    _ = joinSp (pysplit (joinSp (pysplit s))) := normalize_ws_eq_joinSp _
    _ = joinSp (pysplit s) := by rw [pysplit_joinSp (pysplit s) (pysplit_good s)]
    _ = normalize_ws s := (normalize_ws_eq_joinSp s).symm

end PromptCleaner
